import Mathlib

/-!
Verification of the carthooks Go SDK's OAuth token lifecycle manager and
response-envelope parser, shallowly embedded in Lean.

Modelling conventions:
* Go `interface{}` values (as produced by `encoding/json` plus programmatic
  construction) are modelled by the inductive `GoValue`.  JSON numbers decode
  to Go `float64`; the model restricts numbers to integral values (`Int`),
  which is exact for every behaviour the verified claims exercise.
* Wall-clock time (`time.Time`) is modelled as an `Int` count of seconds;
  `time.Now()` becomes an explicit `now` parameter.
* Network I/O (`makeFormRequest` + the HTTP round trip) is modelled by a
  `NetOutcome` oracle parameter: either a transport error or the `Result`
  that `parseResponse` produced from the response body.  Each function also
  reports how many network calls it performed.
* The text→JSON-tree phase of `encoding/json.Unmarshal` (a standard-library
  concern) is an oracle: `parseResponse` receives the raw body text together
  with its parse outcome (`Option GoValue`).  The struct-mapping phase of
  `Unmarshal` is modelled explicitly by `decodeEnvelope`.
* Header maps (`map[string]string`) are association lists with map-update
  semantics (`setHeader`); keys are compared exactly (the SDK always writes
  the canonical spelling "Authorization").
* `http.Client` internals (timeout, transport) are not represented; they do
  not affect any verified claim.
-/

namespace Carthooks

/-- Dynamic Go value: the shapes an `interface{}` holds after JSON decoding
(`null`, `bool`, `float64` numbers, `string`, `[]interface{}`,
`map[string]interface{}`) plus programmatically stored Go `int`s.
Numbers are restricted to integral values. -/
inductive GoValue where
  | null
  | bool (b : Bool)
  | int (n : Int)
  | float (n : Int)
  | str (s : String)
  | arr (elems : List GoValue)
  | obj (fields : List (String × GoValue))

/-- First binding for `key` in a decoded JSON object (Go maps have unique
keys, so first match is the map lookup). -/
def mapGet (fields : List (String × GoValue)) (key : String) : Option GoValue :=
  match fields with
  | [] => none
  | (k, v) :: rest => if k = key then some v else mapGet rest key

/-- Result: the uniform API-call outcome type (types.go). `Data` being the
Go `nil` interface is modelled as `GoValue.null`; a `nil` `Meta` map as
`none`. -/
structure Result where
  success : Bool := false
  data : GoValue := .null
  error : String := ""
  traceID : String := ""
  meta : Option (List (String × GoValue)) := none

/-- OAuthConfig (types.go). -/
structure OAuthConfig where
  clientID : String := ""
  clientSecret : String := ""
  refreshToken : String := ""
  autoRefresh : Bool := false

/-- OAuthTokens (types.go). -/
structure OAuthTokens where
  accessToken : String := ""
  tokenType : String := ""
  expiresIn : Int := 0
  refreshToken : String := ""
  scope : String := ""

/-- OAuthTokenRequest (types.go); empty string stands for an unset field. -/
structure OAuthTokenRequest where
  grantType : String := ""
  clientID : String := ""
  clientSecret : String := ""
  userAccessToken : String := ""
  code : String := ""
  redirectURI : String := ""
  refreshToken : String := ""

/-- Removal of every binding of a key from a header association list. -/
def removeHeader (h : List (String × String)) (k : String) : List (String × String) :=
  match h with
  | [] => []
  | (k2, v) :: rest =>
    if k2 = k then removeHeader rest k else (k2, v) :: removeHeader rest k

/-- Map-update on a header association list (Go `map` assignment /
`http.Header.Set`): any existing binding for the key is removed and the new
binding installed.  Go maps are unordered, so the binding's position in the
list is immaterial; lookups read the first binding. -/
def setHeader (h : List (String × String)) (k v : String) : List (String × String) :=
  (k, v) :: removeHeader h k

/-- Map lookup on a header association list. -/
def lookupHeader (h : List (String × String)) (k : String) : Option String :=
  match h with
  | [] => none
  | (k2, v) :: rest => if k2 = k then some v else lookupHeader rest k

/-- Client: the credential-relevant fields of the `Client` struct
(client.go).  `tokenExpiresAt` models the `*time.Time` field as an optional
instant in seconds. -/
structure Client where
  baseURL : String := ""
  accessToken : String := ""
  headers : List (String × String) := []
  debug : Bool := false
  oauthConfig : Option OAuthConfig := none
  currentTokens : Option OAuthTokens := none
  tokenExpiresAt : Option Int := none

/-- SetAccessToken (client.go): stores the token and rewrites the
Authorization header. -/
def Client.SetAccessToken (c : Client) (token : String) : Client :=
  { c with
    accessToken := token
    headers := setHeader c.headers "Authorization" ("Bearer " ++ token) }

/-- Outcome of one `makeFormRequest` round trip: a transport-level failure,
or the `Result` obtained by running `parseResponse` on the HTTP response. -/
inductive NetOutcome where
  | transportError (msg : String)
  | response (r : Result)

/-- Return value of the token-endpoint operations: updated client state, the
`Result` handed back to the caller, and how many network calls were made. -/
structure CallResult where
  client : Client
  result : Result
  netCalls : Nat

/-- Token extraction from a successful exchange payload (GetOAuthToken,
oauth.go lines 45-61): each field is a Go type assertion, leaving the zero
value when the key is absent or has the wrong dynamic type.  `expires_in`
must be a JSON number (`float64`). -/
def extractTokens (tokenData : List (String × GoValue)) : OAuthTokens :=
  let t0 : OAuthTokens := {}
  let t1 := match mapGet tokenData "access_token" with
    | some (.str s) => { t0 with accessToken := s }
    | _ => t0
  let t2 := match mapGet tokenData "token_type" with
    | some (.str s) => { t1 with tokenType := s }
    | _ => t1
  let t3 := match mapGet tokenData "expires_in" with
    | some (.float n) => { t2 with expiresIn := n }
    | _ => t2
  let t4 := match mapGet tokenData "refresh_token" with
    | some (.str s) => { t3 with refreshToken := s }
    | _ => t3
  match mapGet tokenData "scope" with
  | some (.str s) => { t4 with scope := s }
  | _ => t4

/-- GetOAuthToken (oauth.go lines 12-76).  On a transport error the failure
is wrapped in a Result and nothing is stored.  Otherwise, if the parsed
Result succeeded, the client holds an OAuth configuration whose client id
matches the request, and the payload is a JSON object, the tokens are
stored, the expiry instant is recomputed when `expires_in > 0`, and the
access token is installed via SetAccessToken. -/
def Client.GetOAuthToken (c : Client) (request : OAuthTokenRequest)
    (net : NetOutcome) (now : Int) : CallResult :=
  match net with
  | .transportError msg => ⟨c, { success := false, error := msg }, 1⟩
  | .response result =>
    let stored : Client :=
      match c.oauthConfig with
      | some cfg =>
        if result.success && (request.clientID == cfg.clientID) then
          match result.data with
          | .obj tokenData =>
            let tokens := extractTokens tokenData
            let c1 := { c with
              currentTokens := some tokens
              tokenExpiresAt :=
                if 0 < tokens.expiresIn then some (now + tokens.expiresIn)
                else c.tokenExpiresAt }
            c1.SetAccessToken tokens.accessToken
          | _ => c
        else c
      | none => c
    ⟨stored, result, 1⟩

/-- The refresh-token selection of RefreshOAuthToken (oauth.go lines
87-94): a non-empty first variadic argument, else the configured refresh
token, else the refresh token stored from the last exchange; empty string
when none is available. -/
def selectRefreshToken (c : Client) (cfg : OAuthConfig)
    (refreshToken : List String) : String :=
  let argTok : String :=
    match refreshToken with
    | t :: _ => t
    | [] => ""
  if argTok ≠ "" then argTok
  else if cfg.refreshToken ≠ "" then cfg.refreshToken
  else
    match c.currentTokens with
    | some tk => if tk.refreshToken ≠ "" then tk.refreshToken else ""
    | none => ""

/-- RefreshOAuthToken (oauth.go lines 79-111).  The variadic Go parameter is
a list; precedence: non-empty first argument, then configured refresh token,
then the refresh token stored from the last exchange. -/
def Client.RefreshOAuthToken (c : Client) (refreshToken : List String)
    (net : NetOutcome) (now : Int) : CallResult :=
  match c.oauthConfig with
  | none => ⟨c, { success := false, error := "OAuth configuration not provided" }, 0⟩
  | some cfg =>
    let tokenToUse : String := selectRefreshToken c cfg refreshToken
    if tokenToUse = "" then
      ⟨c, { success := false, error := "No refresh token available" }, 0⟩
    else
      c.GetOAuthToken
        { grantType := "refresh_token"
          clientID := cfg.clientID
          clientSecret := cfg.clientSecret
          refreshToken := tokenToUse } net now

/-- InitializeOAuth (oauth.go lines 114-133): client-credentials exchange,
optionally carrying a user access token. -/
def Client.InitializeOAuth (c : Client) (userAccessToken : List String)
    (net : NetOutcome) (now : Int) : CallResult :=
  match c.oauthConfig with
  | none => ⟨c, { success := false, error := "OAuth configuration not provided" }, 0⟩
  | some cfg =>
    let uat : String :=
      match userAccessToken with
      | t :: _ => if t ≠ "" then t else ""
      | [] => ""
    c.GetOAuthToken
      { grantType := "client_credentials"
        clientID := cfg.clientID
        clientSecret := cfg.clientSecret
        userAccessToken := uat } net now

/-- ExchangeAuthorizationCode (oauth.go lines 136-153). -/
def Client.ExchangeAuthorizationCode (c : Client) (code redirectURI : String)
    (net : NetOutcome) (now : Int) : CallResult :=
  match c.oauthConfig with
  | none => ⟨c, { success := false, error := "OAuth configuration not provided" }, 0⟩
  | some cfg =>
    c.GetOAuthToken
      { grantType := "authorization_code"
        clientID := cfg.clientID
        clientSecret := cfg.clientSecret
        code := code
        redirectURI := redirectURI } net now

/-- Outcome of EnsureValidToken: updated state, the lifecycle error (if
any), network calls performed, and how many refresh attempts were made. -/
structure EnsureOutcome where
  client : Client
  err : Option String
  netCalls : Nat
  refreshAttempts : Nat

/-- EnsureValidToken (oauth.go lines 182-200): no-op without configuration,
with auto-refresh disabled, or with no recorded expiry; no-op when the
expiry instant lies strictly beyond now + 5 minutes; otherwise one refresh
attempt with no explicit token, whose failure becomes the lifecycle
error. -/
def Client.EnsureValidToken (c : Client) (net : NetOutcome) (now : Int) :
    EnsureOutcome :=
  match c.oauthConfig with
  | none => ⟨c, none, 0, 0⟩
  | some cfg =>
    if cfg.autoRefresh = false then ⟨c, none, 0, 0⟩
    else
      match c.tokenExpiresAt with
      | none => ⟨c, none, 0, 0⟩
      | some expiresAt =>
        if now + 300 < expiresAt then ⟨c, none, 0, 0⟩
        else
          let r := c.RefreshOAuthToken [] net now
          { client := r.client
            err :=
              if r.result.success then none
              else some ("failed to refresh token: " ++ r.result.error)
            netCalls := r.netCalls
            refreshAttempts := 1 }

/-- SetOAuthConfig (oauth.go lines 208-215): wholesale replacement of the
configuration (field-by-field copy); stored tokens are not touched. -/
def Client.SetOAuthConfig (c : Client) (config : OAuthConfig) : Client :=
  { c with
    oauthConfig := some
      { clientID := config.clientID
        clientSecret := config.clientSecret
        refreshToken := config.refreshToken
        autoRefresh := config.autoRefresh } }

/-- ClientConfig (client.go).  The HTTP timeout is a transport concern and
is not represented in the credential model. -/
structure ClientConfig where
  baseURL : String := ""
  accessToken : String := ""
  headers : List (String × String) := []
  debug : Bool := false
  oauth : Option OAuthConfig := none

/-- NewClient (client.go lines 273-350).  `getenv` is the process
environment (`os.Getenv`); an unset variable is the empty string.  Defaults
are applied, headers are assembled (Content-Type, Accept, custom headers,
then Authorization when a token is present), and a supplied OAuth
configuration is copied — with auto-refresh forced on when it is off but a
refresh token was supplied. -/
def NewClient (getenv : String → String) (config? : Option ClientConfig) : Client :=
  let config := config?.getD {}
  let baseURL :=
    if config.baseURL ≠ "" then config.baseURL
    else if getenv "CARTHOOKS_API_URL" ≠ "" then getenv "CARTHOOKS_API_URL"
    else "https://api.carthooks.com"
  let accessToken :=
    if config.accessToken ≠ "" then config.accessToken
    else getenv "CARTHOOKS_ACCESS_TOKEN"
  let debug := config.debug || (getenv "CARTHOOKS_SDK_DEBUG" == "true")
  let headers0 : List (String × String) :=
    [("Content-Type", "application/json"), ("Accept", "application/json")]
  let headers1 := config.headers.foldl (fun acc p => setHeader acc p.1 p.2) headers0
  let headers2 :=
    if accessToken ≠ "" then
      setHeader headers1 "Authorization" ("Bearer " ++ accessToken)
    else headers1
  let oauthCfg : Option OAuthConfig :=
    match config.oauth with
    | none => none
    | some oauth =>
      let cfg : OAuthConfig :=
        { clientID := oauth.clientID
          clientSecret := oauth.clientSecret
          refreshToken := oauth.refreshToken
          autoRefresh := oauth.autoRefresh }
      some
        (if cfg.autoRefresh = false && oauth.refreshToken ≠ "" then
          { cfg with autoRefresh := true }
        else cfg)
  { baseURL := baseURL
    accessToken := accessToken
    headers := headers2
    debug := debug
    oauthConfig := oauthCfg }

/-- Headers carried by a request built by makeRequest (client.go lines
392-395): every client header is copied onto the fresh request with
`req.Header.Set`. -/
def makeRequestHeaders (c : Client) : List (String × String) :=
  c.headers.foldl (fun acc p => setHeader acc p.1 p.2) []

/-- Headers carried by a form-encoded token-exchange request built by
makeFormRequest (oauth.go lines 228-242): the form Content-Type and an
Accept default are set first, then every client header other than
Authorization and Content-Type is copied over. -/
def makeFormRequestHeaders (c : Client) : List (String × String) :=
  let base := setHeader (setHeader [] "Content-Type" "application/x-www-form-urlencoded")
    "Accept" "application/json"
  c.headers.foldl
    (fun acc p =>
      if p.1 ≠ "Authorization" && p.1 ≠ "Content-Type" then setHeader acc p.1 p.2
      else acc)
    base

/-- The decoded `error` object of the response envelope (parseResponse). -/
structure ApiError where
  message : String := ""
  code : String := ""

/-- The decoded response envelope (the anonymous struct in parseResponse,
client.go lines 438-446). -/
structure ApiResponse where
  data : GoValue := .null
  error : Option ApiError := none
  traceID : String := ""
  meta : Option (List (String × GoValue)) := none

/-- ASCII lower-casing of one character. -/
def asciiLowerChar (ch : Char) : Char :=
  if 65 ≤ ch.toNat && ch.toNat ≤ 90 then Char.ofNat (ch.toNat + 32) else ch

/-- ASCII lower-casing of a string. -/
def asciiLower (s : String) : String :=
  String.mk (s.data.map asciiLowerChar)

/-- Go JSON field matching: the exact tag name, or an (ASCII)
case-insensitive match; all envelope tags are lower-case. -/
def jsonNameMatches (k target : String) : Bool :=
  k == target || asciiLower k == target

/-- Decoding of the `error` object, per `encoding/json`: `message` and
`code` must be strings (null leaves them zero); a value of any other type
is an unmarshalling error; unknown keys are ignored. -/
def decodeApiErrorFields (acc : ApiError) :
    List (String × GoValue) → Option ApiError
  | [] => some acc
  | (k, v) :: rest =>
    if jsonNameMatches k "message" then
      match v with
      | .str s => decodeApiErrorFields { acc with message := s } rest
      | .null => decodeApiErrorFields acc rest
      | _ => none
    else if jsonNameMatches k "code" then
      match v with
      | .str s => decodeApiErrorFields { acc with code := s } rest
      | .null => decodeApiErrorFields acc rest
      | _ => none
    else decodeApiErrorFields acc rest

/-- Decoding of the envelope object's fields, per `encoding/json`:
`data` accepts anything (an `interface{}` field); `error` must be an object
(decoded into the pointer) or null (pointer reset to nil); `trace_id` must
be a string or null; `meta` must be an object or null; unknown keys are
ignored; any mismatch is an unmarshalling error. -/
def decodeEnvelopeFields (acc : ApiResponse) :
    List (String × GoValue) → Option ApiResponse
  | [] => some acc
  | (k, v) :: rest =>
    if jsonNameMatches k "data" then
      decodeEnvelopeFields { acc with data := v } rest
    else if jsonNameMatches k "error" then
      match v with
      | .null => decodeEnvelopeFields { acc with error := none } rest
      | .obj efs =>
        match decodeApiErrorFields {} efs with
        | some e => decodeEnvelopeFields { acc with error := some e } rest
        | none => none
      | _ => none
    else if jsonNameMatches k "trace_id" then
      match v with
      | .str s => decodeEnvelopeFields { acc with traceID := s } rest
      | .null => decodeEnvelopeFields acc rest
      | _ => none
    else if jsonNameMatches k "meta" then
      match v with
      | .obj mfs => decodeEnvelopeFields { acc with meta := some mfs } rest
      | .null => decodeEnvelopeFields { acc with meta := none } rest
      | _ => none
    else decodeEnvelopeFields acc rest

/-- Struct-mapping phase of `json.Unmarshal(body, &apiResp)`: a JSON null
leaves the zero struct, a JSON object is decoded field by field, and any
other top-level value is an unmarshalling error. -/
def decodeEnvelope : GoValue → Option ApiResponse
  | .null => some {}
  | .obj fields => decodeEnvelopeFields {} fields
  | _ => none

/-- parseResponse (client.go lines 422-470).  `parsed` is the outcome of
the standard library's JSON syntax phase on `body` (`none` when the body is
not syntactically valid JSON).  Any unmarshalling failure yields a failed
Result carrying the raw body text; otherwise the envelope's `error` object
decides success, with `trace_id` and `meta` passed through. -/
def parseResponse (body : String) (parsed : Option GoValue) : Result :=
  match parsed with
  | none => { success := false, error := body }
  | some j =>
    match decodeEnvelope j with
    | none => { success := false, error := body }
    | some apiResp =>
      match apiResp.error with
      | some e =>
        { success := false
          error := e.message
          traceID := apiResp.traceID
          meta := apiResp.meta }
      | none =>
        { success := true
          data := apiResp.data
          traceID := apiResp.traceID
          meta := apiResp.meta }

/-- The white-space runes of fmt's scanner (its `space` table, the
`unicode.White_Space` set): 0x09-0x0d, space, NEL, NBSP, OGHAM space,
U+2000-200A, LS, PS, NNBSP, MMSP and ideographic space. -/
def isScanSpace (ch : Char) : Bool :=
  (0x09 ≤ ch.toNat && ch.toNat ≤ 0x0d) || ch.toNat == 0x20 ||
    ch.toNat == 0x85 || ch.toNat == 0xa0 || ch.toNat == 0x1680 ||
    (0x2000 ≤ ch.toNat && ch.toNat ≤ 0x200a) ||
    ch.toNat == 0x2028 || ch.toNat == 0x2029 || ch.toNat == 0x202f ||
    ch.toNat == 0x205f || ch.toNat == 0x3000

/-- Models `fmt.Sscanf(v, "%d", &result)` as used by GetInt: the scanner
first skips white space (`SkipSpace` over fmt's space table), where in
`Sscanf` a newline reached while skipping — also one following a skipped
carriage return — is a scan error; then an optional sign and a non-empty
run of decimal digits is read from the front of the string (trailing
characters are ignored); values outside the 64-bit signed range are a scan
error. -/
def sscanfInt (s : String) : Option Int :=
  let cs := s.data.dropWhile fun ch => isScanSpace ch && ch ≠ '\n'
  if cs.head? == some '\n' then none
  else
    let sign : Int := if cs.head? == some '-' then -1 else 1
    let rest :=
      if cs.head? == some '-' || cs.head? == some '+' then cs.tail else cs
    let digits := rest.takeWhile Char.isDigit
    if digits.isEmpty then none
    else
      let mag : Nat := digits.foldl (fun acc ch => acc * 10 + (ch.toNat - 48)) 0
      let val : Int := sign * (mag : Int)
      if val < -(2 ^ 63) || 2 ^ 63 - 1 < val then none else some val

/-- Modelled from the spec: a string "parseable as a base-10 integer" in
the claim's sense — the ENTIRE string is an optional sign followed by
decimal digits (strconv-style full-string parsing), with its value.  Used
only to state the claim, for comparison with the source's
`Sscanf`-prefix behaviour (`sscanfInt`). -/
def base10Int? (s : String) : Option Int :=
  let cs := s.data
  let sign : Int := if cs.head? == some '-' then -1 else 1
  let ds := if cs.head? == some '-' || cs.head? == some '+' then cs.tail else cs
  if ds.isEmpty || !(ds.all Char.isDigit) then none
  else some (sign * (ds.foldl (fun acc ch => acc * 10 + (ch.toNat - 48)) 0 : Nat))

/-- GetInt (types.go lines 77-97): fails on an unsuccessful Result; accepts
a Go `int` or `float64` directly; scans a string with `Sscanf "%d"`; every
other shape fails with the wrong-scalar-type error. -/
def Result.GetInt (r : Result) : Except String Int :=
  if r.success = false then
    Except.error ("result is not successful: " ++ r.error)
  else
    match r.data with
    | .int v => Except.ok v
    | .float v => Except.ok v
    | .str v =>
      match sscanfInt v with
      | some n => Except.ok n
      | none => Except.error "data is not an integer"
    | _ => Except.error "data is not an integer"

/-- One operation of the token-lifecycle surface, carrying the oracle data
(network outcome, current time) it consumes. -/
inductive ClientOp where
  | initializeOAuth (userAccessToken : List String) (net : NetOutcome) (now : Int)
  | exchangeAuthorizationCode (code redirectURI : String) (net : NetOutcome) (now : Int)
  | refreshOAuthToken (refreshToken : List String) (net : NetOutcome) (now : Int)
  | ensureValidToken (net : NetOutcome) (now : Int)
  | setOAuthConfig (config : OAuthConfig)
  | setAccessToken (token : String)

/-- State reached after executing an operation. -/
def applyOp (c : Client) : ClientOp → Client
  | .initializeOAuth u net now => (c.InitializeOAuth u net now).client
  | .exchangeAuthorizationCode code uri net now =>
      (c.ExchangeAuthorizationCode code uri net now).client
  | .refreshOAuthToken arg net now => (c.RefreshOAuthToken arg net now).client
  | .ensureValidToken net now => (c.EnsureValidToken net now).client
  | .setOAuthConfig config => c.SetOAuthConfig config
  | .setAccessToken token => c.SetAccessToken token

/-- Number of network calls the operation performs from state `c`. -/
def opNetCalls (c : Client) : ClientOp → Nat
  | .initializeOAuth u net now => (c.InitializeOAuth u net now).netCalls
  | .exchangeAuthorizationCode code uri net now =>
      (c.ExchangeAuthorizationCode code uri net now).netCalls
  | .refreshOAuthToken arg net now => (c.RefreshOAuthToken arg net now).netCalls
  | .ensureValidToken net now => (c.EnsureValidToken net now).netCalls
  | .setOAuthConfig _ => 0
  | .setAccessToken _ => 0

/-- The wall-clock instant at which the operation runs (0 for the pure
setters, which consult no clock). -/
def opNow : ClientOp → Int
  | .initializeOAuth _ _ now => now
  | .exchangeAuthorizationCode _ _ _ now => now
  | .refreshOAuthToken _ _ now => now
  | .ensureValidToken _ now => now
  | .setOAuthConfig _ => 0
  | .setAccessToken _ => 0

/-- Whether the token-endpoint response parsed as a successful Result. -/
def netSuccess : NetOutcome → Bool
  | .transportError _ => false
  | .response r => r.success

/-- The `expires_in` value delivered by the token-endpoint response (0 when
absent, non-numeric, or when the payload is not a JSON object). -/
def netExpiresIn : NetOutcome → Int
  | .transportError _ => 0
  | .response r =>
    match r.data with
    | .obj fields => (extractTokens fields).expiresIn
    | _ => 0

/-- The network outcome consumed by the operation, if it is an exchange
operation. -/
def opNet : ClientOp → Option NetOutcome
  | .initializeOAuth _ net _ => some net
  | .exchangeAuthorizationCode _ _ net _ => some net
  | .refreshOAuthToken _ net _ => some net
  | .ensureValidToken net _ => some net
  | .setOAuthConfig _ => none
  | .setAccessToken _ => none

/-- The `expires_in` delivered by the operation's network outcome. -/
def opExpiresIn (op : ClientOp) : Int :=
  match opNet op with
  | some net => netExpiresIn net
  | none => 0

/-- The operation performed a token exchange that completed successfully
(exactly one network call was made and its parsed Result succeeded) and the
response carried `expires_in > 0`. -/
def successfulPosExchange (c : Client) (op : ClientOp) : Bool :=
  opNetCalls c op == 1 &&
    (match opNet op with
     | some net => netSuccess net
     | none => false) &&
    decide (0 < opExpiresIn op)

/-- Execution of a sequence of client operations. -/
def runOps (c : Client) (ops : List ClientOp) : Client :=
  ops.foldl applyOp c

/-- Whether some operation of the trace performs a successful token
exchange delivering `expires_in > 0`, evaluated in the state in which it
runs. -/
def tracePosExchange : Client → List ClientOp → Bool
  | _, [] => false
  | c, op :: rest =>
    successfulPosExchange c op || tracePosExchange (applyOp c op) rest

/-! Concrete inputs used by witnesses and counterexamples. -/

/-- A parsed token-endpoint response carrying a full successful payload. -/
def netW : NetOutcome :=
  .response
    { success := true
      data := .obj
        [("access_token", .str "tok1"), ("token_type", .str "Bearer"),
         ("expires_in", .float 3600), ("refresh_token", .str "rt1"),
         ("scope", .str "api:full")] }

/-- A parsed token-endpoint response reporting failure. -/
def netFail : NetOutcome := .response { success := false, error := "invalid_grant" }

/-- A client configured for OAuth with auto-refresh on and no seed refresh
token. -/
def cW : Client :=
  { oauthConfig := some
      { clientID := "cid", clientSecret := "sec", refreshToken := "", autoRefresh := true } }

/-- A client holding tokens stored by a prior exchange, with an expiry
instant on record. -/
def cStored : Client :=
  { oauthConfig := some
      { clientID := "cid", clientSecret := "sec", refreshToken := "", autoRefresh := true }
    currentTokens := some
      { accessToken := "tok0", tokenType := "Bearer", expiresIn := 3600
        refreshToken := "stored-refresh", scope := "api:full" }
    tokenExpiresAt := some 1000 }

/-- A replacement OAuth configuration supplying no refresh token. -/
def replacementConfig : OAuthConfig :=
  { clientID := "new-cid", clientSecret := "new-sec", refreshToken := "", autoRefresh := true }

/-- An OAuth configuration with auto-refresh off and a seed refresh
token. -/
def seededOAuth : OAuthConfig :=
  { clientID := "cid", clientSecret := "sec"
    refreshToken := "seed-rt", autoRefresh := false }

/-- A client configuration carrying `seededOAuth`. -/
def seededClientConfig : ClientConfig := { oauth := some seededOAuth }

/-- The spec's example error envelope, as a parsed JSON tree. -/
def envErrJson : GoValue :=
  .obj
    [("error", .obj [("message", .str "Item not found"), ("code", .str "NOT_FOUND")]),
     ("trace_id", .str "abc123")]

/-- The envelope `envErrJson` decodes to. -/
def envErrDecoded : ApiResponse :=
  { error := some { message := "Item not found", code := "NOT_FOUND" }
    traceID := "abc123" }

/-- A successful Result whose data is a string with a numeric prefix and
non-numeric tail. -/
def numericPrefixResult : Result := { success := true, data := .str "123abc" }

/-- A client-credentials exchange operation at time 100, receiving the
successful payload `netW`. -/
def opInitW : ClientOp := .initializeOAuth [] netW 100

/-! Theorems. -/

/-- C2: with no OAuth configuration, or auto-refresh disabled, or no expiry
instant recorded, or an expiry instant more than 5 minutes past the current
time, EnsureValidToken succeeds, changes nothing, and performs zero network
calls. -/
theorem EnsureValidToken_noop (c : Client) (net : NetOutcome) (now : Int)
    (h : c.oauthConfig = none ∨
      (∃ cfg, c.oauthConfig = some cfg ∧ cfg.autoRefresh = false) ∨
      c.tokenExpiresAt = none ∨
      (∃ t, c.tokenExpiresAt = some t ∧ now + 300 < t)) :
    c.EnsureValidToken net now = ⟨c, none, 0, 0⟩ := by
  unfold Client.EnsureValidToken
  rcases h with h | ⟨cfg, hcfg, hauto⟩ | h | ⟨t, ht, hlt⟩
  · rw [h]
  · rw [hcfg]; simp [hauto]
  · cases hcfg : c.oauthConfig with
    | none => rfl
    | some cfg =>
      by_cases hauto : cfg.autoRefresh = false
      · simp [hauto]
      · simp [hauto, h]
  · cases hcfg : c.oauthConfig with
    | none => rfl
    | some cfg =>
      by_cases hauto : cfg.autoRefresh = false
      · simp [hauto]
      · simp [hauto, ht, hlt]

/-- C2 witness at a concrete input: a freshly configured client with no
expiry instant on record. -/
theorem EnsureValidToken_noop_witness :
    cW.EnsureValidToken netW 0 = ⟨cW, none, 0, 0⟩ :=
  EnsureValidToken_noop cW netW 0 (Or.inr (Or.inr (Or.inl rfl)))

/-- C3: with OAuth configured, auto-refresh enabled, and a recorded expiry
at most 5 minutes after the current time, EnsureValidToken performs exactly
one refresh attempt with no explicit refresh token, and errors exactly when
that refresh attempt fails. -/
theorem EnsureValidToken_refreshes (c : Client) (cfg : OAuthConfig) (t : Int)
    (net : NetOutcome) (now : Int)
    (hcfg : c.oauthConfig = some cfg) (hauto : cfg.autoRefresh = true)
    (hexp : c.tokenExpiresAt = some t) (hle : t ≤ now + 300) :
    c.EnsureValidToken net now =
      { client := (c.RefreshOAuthToken [] net now).client
        err :=
          if (c.RefreshOAuthToken [] net now).result.success then none
          else some ("failed to refresh token: " ++ (c.RefreshOAuthToken [] net now).result.error)
        netCalls := (c.RefreshOAuthToken [] net now).netCalls
        refreshAttempts := 1 } ∧
    ((c.EnsureValidToken net now).err = none ↔
      (c.RefreshOAuthToken [] net now).result.success = true) := by
  have hmain : c.EnsureValidToken net now =
      { client := (c.RefreshOAuthToken [] net now).client
        err :=
          if (c.RefreshOAuthToken [] net now).result.success then none
          else some ("failed to refresh token: " ++ (c.RefreshOAuthToken [] net now).result.error)
        netCalls := (c.RefreshOAuthToken [] net now).netCalls
        refreshAttempts := 1 } := by
    unfold Client.EnsureValidToken
    rw [hcfg]
    simp [hauto, hexp, not_lt.mpr hle]
  refine ⟨hmain, ?_⟩
  rw [hmain]
  by_cases hs : (c.RefreshOAuthToken [] net now).result.success = true
  · simp [hs]
  · simp [hs]

/-- C3 witness at a concrete input: stored expiry 1000, current time 800
(within the 5-minute window), refresh succeeding. -/
theorem EnsureValidToken_refreshes_witness :
    cStored.EnsureValidToken netW 800 =
      { client := (cStored.RefreshOAuthToken [] netW 800).client
        err :=
          if (cStored.RefreshOAuthToken [] netW 800).result.success then none
          else some ("failed to refresh token: " ++ (cStored.RefreshOAuthToken [] netW 800).result.error)
        netCalls := (cStored.RefreshOAuthToken [] netW 800).netCalls
        refreshAttempts := 1 } ∧
    ((cStored.EnsureValidToken netW 800).err = none ↔
      (cStored.RefreshOAuthToken [] netW 800).result.success = true) :=
  EnsureValidToken_refreshes cStored
    { clientID := "cid", clientSecret := "sec", refreshToken := "", autoRefresh := true }
    1000 netW 800 rfl rfl rfl (by norm_num)

/-- C4: RefreshOAuthToken selects the refresh token with precedence
explicit argument, then configured token, then token stored from the last
exchange; with none of the three it fails with the no-refresh-token error,
makes no network call, and leaves the client unchanged. -/
theorem RefreshOAuthToken_precedence (c : Client) (cfg : OAuthConfig)
    (arg : List String) (net : NetOutcome) (now : Int)
    (hcfg : c.oauthConfig = some cfg) :
    (∀ t rest, arg = t :: rest → t ≠ "" →
      c.RefreshOAuthToken arg net now =
        c.GetOAuthToken
          { grantType := "refresh_token", clientID := cfg.clientID
            clientSecret := cfg.clientSecret, refreshToken := t } net now) ∧
    ((∀ t rest, arg = t :: rest → t = "") → cfg.refreshToken ≠ "" →
      c.RefreshOAuthToken arg net now =
        c.GetOAuthToken
          { grantType := "refresh_token", clientID := cfg.clientID
            clientSecret := cfg.clientSecret, refreshToken := cfg.refreshToken } net now) ∧
    (∀ tk, (∀ t rest, arg = t :: rest → t = "") → cfg.refreshToken = "" →
      c.currentTokens = some tk → tk.refreshToken ≠ "" →
      c.RefreshOAuthToken arg net now =
        c.GetOAuthToken
          { grantType := "refresh_token", clientID := cfg.clientID
            clientSecret := cfg.clientSecret, refreshToken := tk.refreshToken } net now) ∧
    ((∀ t rest, arg = t :: rest → t = "") → cfg.refreshToken = "" →
      (∀ tk, c.currentTokens = some tk → tk.refreshToken = "") →
      c.RefreshOAuthToken arg net now =
        ⟨c, { success := false, error := "No refresh token available" }, 0⟩) := by
  refine ⟨?_, ?_, ?_, ?_⟩
  · intro t rest harg ht
    subst harg
    unfold Client.RefreshOAuthToken
    rw [hcfg]
    simp [selectRefreshToken, ht]
  · intro harg hcfgTok
    cases arg with
    | nil =>
      unfold Client.RefreshOAuthToken
      rw [hcfg]
      simp [selectRefreshToken, hcfgTok]
    | cons t rest =>
      have ht : t = "" := harg t rest rfl
      subst ht
      unfold Client.RefreshOAuthToken
      rw [hcfg]
      simp [selectRefreshToken, hcfgTok]
  · intro tk harg hcfgTok hcur htk
    cases arg with
    | nil =>
      unfold Client.RefreshOAuthToken
      rw [hcfg]
      simp [selectRefreshToken, hcfgTok, hcur, htk]
    | cons t rest =>
      have ht : t = "" := harg t rest rfl
      subst ht
      unfold Client.RefreshOAuthToken
      rw [hcfg]
      simp [selectRefreshToken, hcfgTok, hcur, htk]
  · intro harg hcfgTok hcur
    cases arg with
    | nil =>
      unfold Client.RefreshOAuthToken
      rw [hcfg]
      cases hc : c.currentTokens with
      | none => simp [selectRefreshToken, hcfgTok, hc]
      | some tk => simp [selectRefreshToken, hcfgTok, hc, hcur tk hc]
    | cons t rest =>
      have ht : t = "" := harg t rest rfl
      subst ht
      unfold Client.RefreshOAuthToken
      rw [hcfg]
      cases hc : c.currentTokens with
      | none => simp [selectRefreshToken, hcfgTok, hc]
      | some tk => simp [selectRefreshToken, hcfgTok, hc, hcur tk hc]

/-- C4 witness at a concrete input: no explicit argument, no configured
token, no stored tokens — the call fails with the no-refresh-token error
without a network call. -/
theorem RefreshOAuthToken_precedence_witness :
    cW.RefreshOAuthToken [] netW 0 =
      ⟨cW, { success := false, error := "No refresh token available" }, 0⟩ :=
  (RefreshOAuthToken_precedence cW
      { clientID := "cid", clientSecret := "sec", refreshToken := "", autoRefresh := true }
      [] netW 0 rfl).2.2.2
    (fun t rest h => by cases h) rfl (fun tk h => by cases h)

/-- C10: NewClient, given an OAuth configuration with auto-refresh off but
a refresh token supplied, constructs the client with auto-refresh forced
on. -/
theorem NewClient_forces_autoRefresh (getenv : String → String)
    (config : ClientConfig) (oauth : OAuthConfig)
    (hoauth : config.oauth = some oauth) (hflag : oauth.autoRefresh = false)
    (htok : oauth.refreshToken ≠ "") :
    (NewClient getenv (some config)).oauthConfig =
      some
        { clientID := oauth.clientID, clientSecret := oauth.clientSecret
          refreshToken := oauth.refreshToken, autoRefresh := true } := by
  unfold NewClient
  simp [hoauth, hflag, htok]

/-- C10 witness at a concrete input. -/
theorem NewClient_forces_autoRefresh_witness :
    (NewClient (fun _ => "") (some seededClientConfig)).oauthConfig =
      some
        { clientID := "cid", clientSecret := "sec"
          refreshToken := "seed-rt", autoRefresh := true } :=
  NewClient_forces_autoRefresh (fun _ => "") seededClientConfig seededOAuth
    rfl rfl (by decide)

/-- C8 counterexample: the claim that replacing the configuration discards
the stored refresh token is false.  After `SetOAuthConfig` with a
configuration supplying no refresh token, a `RefreshOAuthToken` call with
no explicit argument DOES fall back to the refresh token stored by the
prior exchange ("stored-refresh"): it issues one network exchange carrying
that token instead of failing with the no-refresh-token error. -/
theorem SetOAuthConfig_discards_counterexample :
    ((cStored.SetOAuthConfig replacementConfig).RefreshOAuthToken [] netFail 0).netCalls = 1 ∧
    ((cStored.SetOAuthConfig replacementConfig).RefreshOAuthToken [] netFail 0).result.error =
      "invalid_grant" ∧
    (cStored.SetOAuthConfig replacementConfig).RefreshOAuthToken [] netFail 0 =
      (cStored.SetOAuthConfig replacementConfig).GetOAuthToken
        { grantType := "refresh_token", clientID := "new-cid"
          clientSecret := "new-sec", refreshToken := "stored-refresh" } netFail 0 :=
  ⟨rfl, rfl, rfl⟩

/-- C8 (amended): SetOAuthConfig wholesale-replaces the configuration but
leaves the stored tokens untouched, so a subsequent RefreshOAuthToken call
with no explicit argument and no refresh token in the new configuration
falls back to the refresh token stored from a prior exchange. -/
theorem SetOAuthConfig_keeps_stored_refresh (c : Client) (config : OAuthConfig)
    (tk : OAuthTokens) (net : NetOutcome) (now : Int)
    (hnoCfgTok : config.refreshToken = "")
    (hcur : c.currentTokens = some tk) (htk : tk.refreshToken ≠ "") :
    (c.SetOAuthConfig config).currentTokens = c.currentTokens ∧
    (c.SetOAuthConfig config).RefreshOAuthToken [] net now =
      (c.SetOAuthConfig config).GetOAuthToken
        { grantType := "refresh_token", clientID := config.clientID
          clientSecret := config.clientSecret, refreshToken := tk.refreshToken } net now := by
  refine ⟨rfl, ?_⟩
  unfold Client.RefreshOAuthToken Client.SetOAuthConfig
  simp [selectRefreshToken, hnoCfgTok, hcur, htk]

/-- C8 witness at a concrete input. -/
theorem SetOAuthConfig_keeps_stored_refresh_witness :
    (cStored.SetOAuthConfig replacementConfig).currentTokens = cStored.currentTokens ∧
    (cStored.SetOAuthConfig replacementConfig).RefreshOAuthToken [] netFail 0 =
      (cStored.SetOAuthConfig replacementConfig).GetOAuthToken
        { grantType := "refresh_token", clientID := replacementConfig.clientID
          clientSecret := replacementConfig.clientSecret
          refreshToken := "stored-refresh" } netFail 0 :=
  SetOAuthConfig_keeps_stored_refresh cStored replacementConfig
    { accessToken := "tok0", tokenType := "Bearer", expiresIn := 3600
      refreshToken := "stored-refresh", scope := "api:full" }
    netFail 0 rfl rfl (by decide)

/-- C5: for every response body that decodes as the JSON envelope, an
`error` object yields a failed Result whose message is `error.message`,
otherwise a successful Result carrying the envelope's `data`; `trace_id`
and `meta` pass through unchanged in both cases. -/
theorem parseResponse_envelope (body : String) (j : GoValue) (resp : ApiResponse)
    (hdec : decodeEnvelope j = some resp) :
    (∀ e, resp.error = some e →
      parseResponse body (some j) =
        { success := false, data := .null, error := e.message
          traceID := resp.traceID, meta := resp.meta }) ∧
    (resp.error = none →
      parseResponse body (some j) =
        { success := true, data := resp.data, error := ""
          traceID := resp.traceID, meta := resp.meta }) := by
  constructor
  · intro e he
    simp [parseResponse, hdec, he]
  · intro he
    simp [parseResponse, hdec, he]

/-- C5 witness at the spec's example envelope: an error object with message
"Item not found" and trace id "abc123" yields the corresponding failed
Result. -/
theorem parseResponse_envelope_witness :
    parseResponse "raw-body" (some envErrJson) =
      { success := false, data := .null, error := "Item not found"
        traceID := "abc123", meta := none } :=
  (parseResponse_envelope "raw-body" envErrJson envErrDecoded rfl).1
    { message := "Item not found", code := "NOT_FOUND" } rfl

/-- C6: for every response body that does not decode as the JSON envelope
(syntactically malformed JSON, or a shape the envelope mapping rejects),
parseResponse produces a failed Result whose error message is the raw body
text verbatim. -/
theorem parseResponse_raw_body (body : String) (parsed : Option GoValue)
    (h : ∀ j, parsed = some j → decodeEnvelope j = none) :
    parseResponse body parsed =
      { success := false, data := .null, error := body
        traceID := "", meta := none } := by
  cases parsed with
  | none => rfl
  | some j => simp [parseResponse, h j rfl]

/-- C6 witness at a concrete input: a non-JSON gateway error page is
surfaced verbatim. -/
theorem parseResponse_raw_body_witness :
    parseResponse "Internal Server Error" none =
      { success := false, data := .null, error := "Internal Server Error"
        traceID := "", meta := none } :=
  parseResponse_raw_body "Internal Server Error" none (fun j h => by cases h)

/-- C9 counterexample: the claim that GetInt fails on every string not
parseable as a base-10 integer is false.  The string "123abc" is not a
base-10 integer (full-string parsing rejects it), yet GetInt returns 123,
the value of its numeric prefix, because `Sscanf "%d"` ignores trailing
input. -/
theorem GetInt_counterexample :
    numericPrefixResult.success = true ∧
    numericPrefixResult.data = GoValue.str "123abc" ∧
    base10Int? "123abc" = none ∧
    numericPrefixResult.GetInt = Except.ok 123 :=
  ⟨rfl, rfl, by decide, rfl⟩

/-- C9 (amended): for a successful Result, GetInt returns the value when
data is a native integer or float64; when data is a string it returns the
value scanned by `Sscanf "%d"` (an optional sign and decimal-digit prefix
after skipping leading white space per fmt's space table, a newline reached
while skipping being a scan error, trailing characters ignored, 64-bit
range) when that scan succeeds, and fails with the wrong-scalar-type error
when it does not; every other shape of data fails with the
wrong-scalar-type error; every unsuccessful Result fails. -/
theorem GetInt_characterization :
    (∀ r : Result, r.success = true →
      (∀ n, r.data = .int n → r.GetInt = Except.ok n) ∧
      (∀ n, r.data = .float n → r.GetInt = Except.ok n) ∧
      (∀ s n, r.data = .str s → sscanfInt s = some n → r.GetInt = Except.ok n) ∧
      (∀ s, r.data = .str s → sscanfInt s = none →
        r.GetInt = Except.error "data is not an integer") ∧
      ((∀ n, r.data ≠ .int n) → (∀ n, r.data ≠ .float n) → (∀ s, r.data ≠ .str s) →
        r.GetInt = Except.error "data is not an integer")) ∧
    (∀ r : Result, r.success = false →
      r.GetInt = Except.error ("result is not successful: " ++ r.error)) := by
  constructor
  · intro r hs
    refine ⟨?_, ?_, ?_, ?_, ?_⟩
    · intro n hd
      simp [Result.GetInt, hs, hd]
    · intro n hd
      simp [Result.GetInt, hs, hd]
    · intro s n hd hscan
      simp [Result.GetInt, hs, hd, hscan]
    · intro s hd hscan
      simp [Result.GetInt, hs, hd, hscan]
    · intro h1 h2 h3
      unfold Result.GetInt
      simp only [hs]
      cases hd : r.data with
      | null => simp
      | bool b => simp
      | int n => exact absurd hd (h1 n)
      | float n => exact absurd hd (h2 n)
      | str s => exact absurd hd (h3 s)
      | arr elems => simp
      | obj fields => simp
  · intro r hs
    simp [Result.GetInt, hs]

/-- C9 witness at concrete inputs: the numeric-prefix string scans to 123,
and an unsuccessful Result fails with its error attached. -/
theorem GetInt_characterization_witness :
    numericPrefixResult.GetInt = Except.ok 123 ∧
    ({ success := false, error := "boom" } : Result).GetInt =
      Except.error ("result is not successful: " ++ "boom") :=
  ⟨(GetInt_characterization.1 numericPrefixResult rfl).2.2.1 "123abc" 123 rfl rfl,
   GetInt_characterization.2 { success := false, error := "boom" } rfl⟩

/-- Looking up the key just written by setHeader yields the new value. -/
theorem lookupHeader_setHeader_self (h : List (String × String)) (k v : String) :
    lookupHeader (setHeader h k v) k = some v := by
  simp [setHeader, lookupHeader]

/-- Removing a different key does not change a lookup. -/
theorem lookupHeader_removeHeader_ne (k k2 : String) (hne : k2 ≠ k)
    (h : List (String × String)) :
    lookupHeader (removeHeader h k) k2 = lookupHeader h k2 := by
  induction h with
  | nil => rfl
  | cons p t ih =>
    rcases p with ⟨a, b⟩
    by_cases hp : a = k
    · rw [removeHeader, if_pos hp, ih]
      have ha2 : ¬ (a = k2) := fun hEq => hne (hEq.symm.trans hp)
      show lookupHeader t k2 = if a = k2 then some b else lookupHeader t k2
      rw [if_neg ha2]
    · rw [removeHeader, if_neg hp]
      show (if a = k2 then some b else lookupHeader (removeHeader t k) k2) =
        if a = k2 then some b else lookupHeader t k2
      rw [ih]

/-- Every binding surviving removeHeader has a different key. -/
theorem removeHeader_key_ne (k : String) :
    ∀ h : List (String × String), ∀ p ∈ removeHeader h k, p.1 ≠ k := by
  intro h
  induction h with
  | nil => intro p hp; cases hp
  | cons q t ih =>
    rcases q with ⟨a, b⟩
    intro p hp
    by_cases ha : a = k
    · rw [removeHeader, if_pos ha] at hp
      exact ih p hp
    · rw [removeHeader, if_neg ha] at hp
      rcases List.mem_cons.mp hp with h1 | h2
      · rw [h1]; exact ha
      · exact ih p h2

/-- Writing one key does not change lookups of a different key. -/
theorem lookupHeader_setHeader_ne (h : List (String × String)) (k k2 v : String)
    (hne : k2 ≠ k) :
    lookupHeader (setHeader h k v) k2 = lookupHeader h k2 := by
  have hk : ¬ (k = k2) := fun hEq => hne hEq.symm
  rw [setHeader]
  show (if k = k2 then some v else lookupHeader (removeHeader h k) k2) = lookupHeader h k2
  rw [if_neg hk]
  exact lookupHeader_removeHeader_ne k k2 hne h

/-- Copying headers none of which bind `k` preserves the lookup of `k`. -/
theorem lookupHeader_foldl_setHeader_absent (k : String) :
    ∀ l : List (String × String), (∀ p ∈ l, p.1 ≠ k) →
    ∀ acc, lookupHeader (l.foldl (fun a p => setHeader a p.1 p.2) acc) k =
      lookupHeader acc k := by
  intro l
  induction l with
  | nil => intro _ acc; rfl
  | cons p t ih =>
    intro hfree acc
    rw [List.foldl_cons]
    rw [ih (fun q hq => hfree q (List.mem_cons_of_mem p hq)) (setHeader acc p.1 p.2)]
    exact lookupHeader_setHeader_ne acc p.1 k p.2 (Ne.symm (hfree p (List.mem_cons_self p t)))

/-- A request built by makeRequest carries the binding most recently
written into the client's headers with setHeader. -/
theorem makeRequestHeaders_of_setHeader (c : Client) (h : List (String × String))
    (k v : String) (hc : c.headers = setHeader h k v) :
    lookupHeader (makeRequestHeaders c) k = some v := by
  unfold makeRequestHeaders
  rw [hc, setHeader]
  rw [List.foldl_cons]
  rw [lookupHeader_foldl_setHeader_absent k (removeHeader h k) (removeHeader_key_ne k h)]
  exact lookupHeader_setHeader_self [] k v

/-- The header-copy loop of makeFormRequest never writes the Authorization
key, so its absence is preserved. -/
theorem lookupHeader_foldl_formStep (l : List (String × String)) :
    ∀ acc, lookupHeader acc "Authorization" = none →
    lookupHeader
      (l.foldl
        (fun acc p =>
          if p.1 ≠ "Authorization" && p.1 ≠ "Content-Type" then setHeader acc p.1 p.2
          else acc)
        acc) "Authorization" = none := by
  induction l with
  | nil => intro acc hacc; exact hacc
  | cons p t ih =>
    intro acc hacc
    rw [List.foldl_cons]
    apply ih
    by_cases hp : (p.1 ≠ "Authorization" && p.1 ≠ "Content-Type") = true
    · rw [if_pos hp]
      have hne : p.1 ≠ "Authorization" := by
        have := (Bool.and_eq_true _ _).mp hp
        simpa using this.1
      rw [lookupHeader_setHeader_ne acc p.1 "Authorization" p.2 (Ne.symm hne)]
      exact hacc
    · rw [if_neg hp]
      exact hacc

/-- C7: a request built by makeRequest carries `Authorization: Bearer
token` for the configured access token — whether the token was installed
with SetAccessToken (also the final step of every successful token
exchange) or supplied at construction — while a form-encoded token-exchange
request built by makeFormRequest never carries an Authorization header,
whatever the client holds. -/
theorem authorization_header_policy :
    (∀ (c : Client) (token : String),
      lookupHeader (makeRequestHeaders (c.SetAccessToken token)) "Authorization" =
        some ("Bearer " ++ token)) ∧
    (∀ (getenv : String → String) (config? : Option ClientConfig),
      (NewClient getenv config?).accessToken ≠ "" →
      lookupHeader (makeRequestHeaders (NewClient getenv config?)) "Authorization" =
        some ("Bearer " ++ (NewClient getenv config?).accessToken)) ∧
    (∀ c : Client, lookupHeader (makeFormRequestHeaders c) "Authorization" = none) := by
  refine ⟨?_, ?_, ?_⟩
  · intro c token
    exact makeRequestHeaders_of_setHeader (c.SetAccessToken token) c.headers
      "Authorization" ("Bearer " ++ token) rfl
  · intro getenv config? hA
    apply makeRequestHeaders_of_setHeader (NewClient getenv config?)
      ((config?.getD {}).headers.foldl (fun acc p => setHeader acc p.1 p.2)
        [("Content-Type", "application/json"), ("Accept", "application/json")])
      "Authorization" ("Bearer " ++ (NewClient getenv config?).accessToken)
    show (if (NewClient getenv config?).accessToken ≠ "" then
        setHeader
          ((config?.getD {}).headers.foldl (fun acc p => setHeader acc p.1 p.2)
            [("Content-Type", "application/json"), ("Accept", "application/json")])
          "Authorization" ("Bearer " ++ (NewClient getenv config?).accessToken)
      else
        (config?.getD {}).headers.foldl (fun acc p => setHeader acc p.1 p.2)
          [("Content-Type", "application/json"), ("Accept", "application/json")]) =
      setHeader
        ((config?.getD {}).headers.foldl (fun acc p => setHeader acc p.1 p.2)
          [("Content-Type", "application/json"), ("Accept", "application/json")])
        "Authorization" ("Bearer " ++ (NewClient getenv config?).accessToken)
    exact if_pos hA
  · intro c
    unfold makeFormRequestHeaders
    exact lookupHeader_foldl_formStep c.headers _ rfl

/-- C7 witness at concrete inputs: a token installed with SetAccessToken, a
static token supplied at construction, and the form-request headers of a
client holding tokens. -/
theorem authorization_header_policy_witness :
    lookupHeader (makeRequestHeaders (({} : Client).SetAccessToken "tok")) "Authorization" =
      some ("Bearer " ++ "tok") ∧
    lookupHeader
      (makeRequestHeaders (NewClient (fun _ => "") (some { accessToken := "static" })))
      "Authorization" =
      some ("Bearer " ++ (NewClient (fun _ => "") (some { accessToken := "static" })).accessToken) ∧
    lookupHeader (makeFormRequestHeaders ((cStored.SetAccessToken "tok2"))) "Authorization" = none :=
  ⟨authorization_header_policy.1 {} "tok",
   authorization_header_policy.2.1 (fun _ => "") (some { accessToken := "static" }) (by decide),
   authorization_header_policy.2.2 (cStored.SetAccessToken "tok2")⟩

/-- SetAccessToken does not touch the expiry instant. -/
theorem SetAccessToken_tokenExpiresAt (c : Client) (token : String) :
    (c.SetAccessToken token).tokenExpiresAt = c.tokenExpiresAt := rfl

/-- The expiry instant after GetOAuthToken: recomputed to `now` plus the
delivered `expires_in` exactly when the parsed response succeeded, the
request's client id matches the configured one, and the delivered
`expires_in` is positive; unchanged otherwise. -/
theorem GetOAuthToken_expiry (c : Client) (req : OAuthTokenRequest)
    (net : NetOutcome) (now : Int) :
    (c.GetOAuthToken req net now).client.tokenExpiresAt =
      if (netSuccess net &&
          (match c.oauthConfig with
           | some cfg => req.clientID == cfg.clientID
           | none => false) &&
          decide (0 < netExpiresIn net)) = true
      then some (now + netExpiresIn net)
      else c.tokenExpiresAt := by
  cases net with
  | transportError msg => simp [Client.GetOAuthToken, netSuccess]
  | response result =>
    unfold Client.GetOAuthToken
    dsimp only [netSuccess, netExpiresIn]
    cases hcfg : c.oauthConfig with
    | none => simp
    | some cfg =>
      dsimp only
      by_cases hsc : (result.success && (req.clientID == cfg.clientID)) = true
      · rw [if_pos hsc]
        rcases (Bool.and_eq_true _ _).mp hsc with ⟨hres, hid⟩
        cases hdata : result.data with
        | obj fields =>
          dsimp only [Client.SetAccessToken]
          by_cases hpos : (0 < (extractTokens fields).expiresIn)
          · simp [hres, hid, hpos]
          · simp [hres, hid, hpos]
        | null => simp [hres, hid, hdata]
        | bool b => simp [hres, hid, hdata]
        | int n => simp [hres, hid, hdata]
        | float n => simp [hres, hid, hdata]
        | str s => simp [hres, hid, hdata]
        | arr elems => simp [hres, hid, hdata]
      · rw [if_neg hsc]
        have h0 : (result.success && (req.clientID == cfg.clientID)) = false := by
          simpa using hsc
        simp [h0]

/-- The expiry instant after InitializeOAuth: recomputed exactly when the
exchange happened (one network call), succeeded, and delivered a positive
`expires_in`. -/
theorem InitializeOAuth_expiry (c : Client) (u : List String)
    (net : NetOutcome) (now : Int) :
    (c.InitializeOAuth u net now).client.tokenExpiresAt =
      if ((c.InitializeOAuth u net now).netCalls == 1 && netSuccess net &&
          decide (0 < netExpiresIn net)) = true
      then some (now + netExpiresIn net)
      else c.tokenExpiresAt := by
  unfold Client.InitializeOAuth
  cases hcfg : c.oauthConfig with
  | none => simp
  | some cfg =>
    dsimp only
    rw [GetOAuthToken_expiry]
    have hcalls : (c.GetOAuthToken
        { grantType := "client_credentials", clientID := cfg.clientID
          clientSecret := cfg.clientSecret
          userAccessToken := match u with | t :: _ => if t ≠ "" then t else "" | [] => "" }
        net now).netCalls = 1 := by
      cases net <;> rfl
    rw [hcfg, hcalls]
    simp

/-- The expiry instant after ExchangeAuthorizationCode. -/
theorem ExchangeAuthorizationCode_expiry (c : Client) (code redirectURI : String)
    (net : NetOutcome) (now : Int) :
    (c.ExchangeAuthorizationCode code redirectURI net now).client.tokenExpiresAt =
      if ((c.ExchangeAuthorizationCode code redirectURI net now).netCalls == 1 &&
          netSuccess net && decide (0 < netExpiresIn net)) = true
      then some (now + netExpiresIn net)
      else c.tokenExpiresAt := by
  unfold Client.ExchangeAuthorizationCode
  cases hcfg : c.oauthConfig with
  | none => simp
  | some cfg =>
    dsimp only
    rw [GetOAuthToken_expiry]
    have hcalls : (c.GetOAuthToken
        { grantType := "authorization_code", clientID := cfg.clientID
          clientSecret := cfg.clientSecret, code := code, redirectURI := redirectURI }
        net now).netCalls = 1 := by
      cases net <;> rfl
    rw [hcfg, hcalls]
    simp

/-- GetOAuthToken always performs exactly one network call. -/
theorem GetOAuthToken_netCalls (c : Client) (req : OAuthTokenRequest)
    (net : NetOutcome) (now : Int) :
    (c.GetOAuthToken req net now).netCalls = 1 := by
  cases net <;> rfl

/-- The expiry instant after RefreshOAuthToken: recomputed exactly when a
refresh exchange happened (one network call), succeeded, and delivered a
positive `expires_in`. -/
theorem RefreshOAuthToken_expiry (c : Client) (arg : List String)
    (net : NetOutcome) (now : Int) :
    (c.RefreshOAuthToken arg net now).client.tokenExpiresAt =
      if ((c.RefreshOAuthToken arg net now).netCalls == 1 && netSuccess net &&
          decide (0 < netExpiresIn net)) = true
      then some (now + netExpiresIn net)
      else c.tokenExpiresAt := by
  unfold Client.RefreshOAuthToken
  cases hcfg : c.oauthConfig with
  | none => simp
  | some cfg =>
    dsimp only
    by_cases htok : selectRefreshToken c cfg arg = ""
    · rw [if_pos htok]
      simp
    · rw [if_neg htok]
      rw [GetOAuthToken_netCalls, GetOAuthToken_expiry, hcfg]
      simp

/-- The expiry instant after EnsureValidToken: recomputed exactly when the
call performed a refresh exchange (one network call) that succeeded with a
positive `expires_in`. -/
theorem EnsureValidToken_expiry (c : Client) (net : NetOutcome) (now : Int) :
    (c.EnsureValidToken net now).client.tokenExpiresAt =
      if ((c.EnsureValidToken net now).netCalls == 1 && netSuccess net &&
          decide (0 < netExpiresIn net)) = true
      then some (now + netExpiresIn net)
      else c.tokenExpiresAt := by
  unfold Client.EnsureValidToken
  cases hcfg : c.oauthConfig with
  | none => simp
  | some cfg =>
    dsimp only
    split
    · simp
    · cases hexp : c.tokenExpiresAt with
      | none => simp [hexp]
      | some expiresAt =>
        dsimp only
        split
        · simp [hexp]
        · dsimp only
          rw [RefreshOAuthToken_expiry]
          rw [hexp]

/-- The expiry instant after any lifecycle operation: recomputed to the
exchange time plus the delivered `expires_in` exactly when the operation
performed a successful token exchange with a positive `expires_in`;
unchanged otherwise. -/
theorem applyOp_expiry (c : Client) (op : ClientOp) :
    (applyOp c op).tokenExpiresAt =
      if successfulPosExchange c op = true
      then some (opNow op + opExpiresIn op)
      else c.tokenExpiresAt := by
  cases op with
  | initializeOAuth u net now =>
    simpa [applyOp, successfulPosExchange, opNetCalls, opNet, opNow, opExpiresIn] using
      InitializeOAuth_expiry c u net now
  | exchangeAuthorizationCode code uri net now =>
    simpa [applyOp, successfulPosExchange, opNetCalls, opNet, opNow, opExpiresIn] using
      ExchangeAuthorizationCode_expiry c code uri net now
  | refreshOAuthToken arg net now =>
    simpa [applyOp, successfulPosExchange, opNetCalls, opNet, opNow, opExpiresIn] using
      RefreshOAuthToken_expiry c arg net now
  | ensureValidToken net now =>
    simpa [applyOp, successfulPosExchange, opNetCalls, opNet, opNow, opExpiresIn] using
      EnsureValidToken_expiry c net now
  | setOAuthConfig config =>
    simp [applyOp, successfulPosExchange, opNetCalls, opNet, Client.SetOAuthConfig]
  | setAccessToken token =>
    simp [applyOp, successfulPosExchange, opNetCalls, opNet, Client.SetAccessToken]

/-- Presence of the expiry instant after one operation. -/
theorem applyOp_expiry_isSome (c : Client) (op : ClientOp) :
    (applyOp c op).tokenExpiresAt.isSome =
      (successfulPosExchange c op || c.tokenExpiresAt.isSome) := by
  rw [applyOp_expiry]
  cases hb : successfulPosExchange c op <;> simp [hb]

/-- Presence of the expiry instant after a trace of operations. -/
theorem runOps_expiry_isSome :
    ∀ (ops : List ClientOp) (c : Client),
      (runOps c ops).tokenExpiresAt.isSome =
        (tracePosExchange c ops || c.tokenExpiresAt.isSome) := by
  intro ops
  induction ops with
  | nil => intro c; simp [runOps, tracePosExchange]
  | cons op rest ih =>
    intro c
    rw [show runOps c (op :: rest) = runOps (applyOp c op) rest from rfl]
    rw [ih (applyOp c op)]
    rw [applyOp_expiry_isSome]
    rw [show tracePosExchange c (op :: rest) =
      (successfulPosExchange c op || tracePosExchange (applyOp c op) rest) from rfl]
    cases successfulPosExchange c op <;>
      cases tracePosExchange (applyOp c op) rest <;> simp

/-- C1: starting from a client with no expiry instant (the state NewClient
produces), after any sequence of lifecycle operations the stored expiry
instant is present if and only if some operation of the trace completed a
token exchange successfully with `expires_in > 0`; every such exchange
recomputes the instant to the exchange time plus `expires_in` (hence
strictly after the exchange time), and every other operation leaves the
instant unchanged (in particular unset when `expires_in` is 0 or
absent). -/
theorem tokenExpiry_lifecycle :
    (∀ (c : Client) (ops : List ClientOp), c.tokenExpiresAt = none →
      ((runOps c ops).tokenExpiresAt.isSome = true ↔
        tracePosExchange c ops = true)) ∧
    (∀ (c : Client) (op : ClientOp), successfulPosExchange c op = true →
      (applyOp c op).tokenExpiresAt = some (opNow op + opExpiresIn op) ∧
      opNow op < opNow op + opExpiresIn op) ∧
    (∀ (c : Client) (op : ClientOp), successfulPosExchange c op = false →
      (applyOp c op).tokenExpiresAt = c.tokenExpiresAt) := by
  refine ⟨?_, ?_, ?_⟩
  · intro c ops h0
    rw [runOps_expiry_isSome ops c, h0]
    simp
  · intro c op hspe
    refine ⟨by rw [applyOp_expiry, if_pos hspe], ?_⟩
    have hpos : 0 < opExpiresIn op := by
      have h3 := ((Bool.and_eq_true _ _).mp hspe).2
      exact of_decide_eq_true h3
    linarith
  · intro c op hspe
    rw [applyOp_expiry]
    simp [hspe]

/-- C1 witness at concrete inputs: one successful client-credentials
exchange delivering `expires_in = 3600` at time 100 sets the expiry instant
to 3700, and a configuration replacement leaves the stored instant
unchanged. -/
theorem tokenExpiry_lifecycle_witness :
    ((runOps cW [opInitW]).tokenExpiresAt.isSome = true ↔
      tracePosExchange cW [opInitW] = true) ∧
    (applyOp cW opInitW).tokenExpiresAt = some (opNow opInitW + opExpiresIn opInitW) ∧
    (applyOp cStored (ClientOp.setOAuthConfig replacementConfig)).tokenExpiresAt =
      cStored.tokenExpiresAt :=
  ⟨tokenExpiry_lifecycle.1 cW [opInitW] rfl,
   (tokenExpiry_lifecycle.2.1 cW opInitW (by decide)).1,
   tokenExpiry_lifecycle.2.2 cStored (ClientOp.setOAuthConfig replacementConfig) (by decide)⟩

end Carthooks
